import Mathlib

/-!
Verification of `open_ephys/streaming/event_listener.py`.

The file shallowly embeds the `EventListener` class: its constructor, the
`start` polling loop, `stop`, and the dispatch of decoded JSON events to the
spike / TTL callbacks.  Library behaviour (the ZMQ socket, `bytes.decode`,
`json.loads`) is abstracted: the socket's observable activity is a list of
`SockOp` actions, and UTF-8 decoding + JSON parsing of a message part is a
parameter `decode : Bytes → Except PyExc Json` of the loop (its failure is a
raised exception, exactly as in the Python code).  Everything the repository
itself does — part-count check, `info['event_type']` subscript, the `== 'spike'`
comparison, the `try/except` clauses, the flag handling — is translated
directly from the source.
-/

namespace OpenEphys

/-- Raw bytes of one part of a multipart message (`bytes` in Python). -/
abbrev Bytes := List Nat

/-- JSON values as produced by `json.loads`.  Numbers are modelled as integers;
no claim depends on fractional payload values. -/
inductive Json where
  | null
  | bool (b : Bool)
  | num (n : Int)
  | str (s : String)
  | arr (elems : List Json)
  | obj (fields : List (String × Json))

/-- Python exceptions as seen by the loop's `except` clauses: either a
`KeyboardInterrupt`, or any `Exception`-derived error carrying `str(e)`. -/
inductive PyExc where
  | keyboardInterrupt
  | exception (msg : String)
deriving Repr, DecidableEq

/-- Python dict subscript `info[key]` on a decoded JSON value: a `KeyError`
(whose `str` is the quoted key) when the object lacks the key, a `TypeError`
when the value is not a dict at all.  Both derive from `Exception`. -/
def Json.subscript : Json → String → Except PyExc Json
  | .obj fields, key =>
      match fields.lookup key with
      | some v => .ok v
      | none => .error (.exception ("'" ++ key ++ "'"))
  | .arr _, _ => .error (.exception "list indices must be integers or slices, not str")
  | .str _, _ => .error (.exception "string indices must be integers")
  | .num _, _ => .error (.exception "'int' object is not subscriptable")
  | .bool _, _ => .error (.exception "'bool' object is not subscriptable")
  | .null, _ => .error (.exception "'NoneType' object is not subscriptable")

/-- Python `==` between a decoded JSON value and a string literal: true exactly
when the value is that string (`info['event_type'] == 'spike'`). -/
def Json.eqStr : Json → String → Bool
  | .str s, t => s = t
  | _, _ => false

/-- A callback held by the listener (`self.spike_callback` / `self.ttl_callback`
at call time): receives the decoded event structure and may raise. -/
abbrev Callback := Json → Except PyExc Unit

/-- Observable operations on the ZMQ context/socket pair. -/
inductive SockOp where
  | newContext
  | newSocket
  | connect (url : String)
  | subscribe (topic : Bytes)
  | poll
  | recvMultipart
  | close
  | term
deriving Repr, DecidableEq

/-- The listener's state: the connection url, the identities of the context and
socket resources, the subscriptions installed on the socket, and the mutable
`running` flag. -/
structure EventListener where
  url : String
  context : Nat
  socket : Nat
  subscriptions : List Bytes
  running : Bool
deriving Repr, DecidableEq

/-- `EventListener.__init__`: builds `"tcp://%s:%d" % (ip_address, port)`,
creates a context and a SUB socket, connects, subscribes to all topics with the
empty prefix `b''`, and sets `self.running = False`. -/
def EventListener.init (ip : String) (port : Nat) : EventListener :=
  { url := "tcp://" ++ ip ++ ":" ++ toString port
    context := 0
    socket := 0
    subscriptions := [[]]
    running := false }

/-- Socket operations performed by `__init__`, in source order. -/
def EventListener.initSockOps (url : String) : List SockOp :=
  [.newContext, .newSocket, .connect url, .subscribe []]

/-- `EventListener.stop`: `self.running = False`.  A plain attribute assignment,
so it is total (cannot raise) and touches nothing but the flag. -/
def EventListener.stop (s : EventListener) : EventListener :=
  { s with running := false }

/-- Socket operations performed by `stop`: none. -/
def EventListener.stopSockOps : List SockOp := []

/-- What the environment delivers to one iteration of the `while` loop:
a poll timeout with no data, a received multipart message, or an exception
raised inside the `try` block by the runtime (`KeyboardInterrupt` during the
wait, a ZMQ error, ...). -/
inductive PollEvent where
  | timeout
  | recv (parts : List Bytes)
  | raise (e : PyExc)

/-- One entry of the loop schedule: either an external `stop()` call landing
before the next flag check, or one poll iteration. -/
inductive LoopInput where
  | stopRequest
  | poll (ev : PollEvent)

/-- Calls and socket activity produced by one execution of the `try` body. -/
structure IterCalls where
  spikeCalls : List Json := []
  ttlCalls : List Json := []
  sockOps : List SockOp := []

/-- Turns a callback outcome into the exception (if any) it raised. -/
def cbExc : Except PyExc Unit → Option PyExc
  | .ok _ => none
  | .error e => some e

/-- The body of the `try` block for one iteration (source lines 93-102):
poll; if the socket is readable, `recv_multipart`; if exactly two parts, decode
the second part and dispatch on `info['event_type'] == 'spike'`.  Returns the
callback invocations made together with the exception, if one was raised. -/
def tryBody (decode : Bytes → Except PyExc Json) (spikeCb ttlCb : Callback) :
    PollEvent → IterCalls × Option PyExc
  | .timeout => ({ sockOps := [.poll] }, none)
  | .raise e => ({}, some e)
  | .recv parts =>
      if parts.length = 2 then
        match decode (parts.getD 1 []) with
        | .error e => ({ sockOps := [.poll, .recvMultipart] }, some e)
        | .ok info =>
            match info.subscript "event_type" with
            | .error e => ({ sockOps := [.poll, .recvMultipart] }, some e)
            | .ok v =>
                if v.eqStr "spike" then
                  ({ spikeCalls := [info], sockOps := [.poll, .recvMultipart] },
                   cbExc (spikeCb info))
                else
                  ({ ttlCalls := [info], sockOps := [.poll, .recvMultipart] },
                   cbExc (ttlCb info))
      else
        ({ sockOps := [.poll, .recvMultipart] }, none)

/-- What an `except` clause decides to do with a raised exception. -/
inductive Handled where
  | resume (log : String)
  | brk (log : String)
  | propagate (e : PyExc)
deriving Repr, DecidableEq

/-- The source's `except` clauses (lines 103-107): `except KeyboardInterrupt`
prints and breaks; `except Exception as e` prints `f"Error: {e}"` and the loop
continues.  An exception matching no clause would propagate. -/
def handleExc : PyExc → Handled
  | .keyboardInterrupt => .brk "Stopped by KeyboardInterrupt"
  | .exception m => .resume ("Error: " ++ m)

/-- The observable outcome of one run of the `while` loop: every callback
invocation, everything printed, the socket activity, the value of the `running`
flag when `start` returns, whether the exit was a `KeyboardInterrupt` break,
and whether the (finite) schedule merely ran out while the loop was still
running — a model artifact marking runs that did not actually terminate. -/
structure RunResult where
  spikeCalls : List Json
  ttlCalls : List Json
  logs : List String
  sockOps : List SockOp
  running : Bool
  interrupted : Bool
  exhausted : Bool

/-- Prefixes one iteration's calls, ops and log lines onto the run outcome. -/
def RunResult.prepend (calls : IterCalls) (ls : List String) (r : RunResult) :
    RunResult :=
  { r with
    spikeCalls := calls.spikeCalls ++ r.spikeCalls
    ttlCalls := calls.ttlCalls ++ r.ttlCalls
    sockOps := calls.sockOps ++ r.sockOps
    logs := ls ++ r.logs }

/-- Result of the loop exiting because `self.running` was observed false:
`print("EventListener stopped.")` and return. -/
def exitedResult : RunResult :=
  { spikeCalls := [], ttlCalls := [], logs := ["EventListener stopped."]
    sockOps := [], running := false, interrupted := false, exhausted := false }

/-- Model artifact: the finite schedule ended while the flag was still true
(the real loop would simply keep polling). -/
def exhaustedResult : RunResult :=
  { spikeCalls := [], ttlCalls := [], logs := []
    sockOps := [], running := true, interrupted := false, exhausted := true }

/-- Result of the loop exiting through `break` in `except KeyboardInterrupt`:
both prints run, and the `running` flag is left untouched — still true. -/
def brkResult (log : String) : RunResult :=
  { spikeCalls := [], ttlCalls := [], logs := [log, "EventListener stopped."]
    sockOps := [], running := true, interrupted := true, exhausted := false }

/-- The `while self.running` loop (source lines 92-109), run over a finite
schedule of inputs.  The flag is checked first each iteration; a `stopRequest`
sets it false; a poll iteration runs `tryBody` and applies the `except`
clauses to any raised exception.  The result is `.error` only if an exception
propagates out of the loop. -/
def loopGo (decode : Bytes → Except PyExc Json) (spikeCb ttlCb : Callback) :
    List LoopInput → Bool → Except PyExc RunResult
  | _, false => .ok exitedResult
  | [], true => .ok exhaustedResult
  | .stopRequest :: rest, true => loopGo decode spikeCb ttlCb rest false
  | .poll ev :: rest, true =>
      match tryBody decode spikeCb ttlCb ev with
      | (calls, none) =>
          (loopGo decode spikeCb ttlCb rest true).map (RunResult.prepend calls [])
      | (calls, some e) =>
          match handleExc e with
          | .resume log =>
              (loopGo decode spikeCb ttlCb rest true).map
                (RunResult.prepend calls [log])
          | .brk log => .ok (RunResult.prepend calls [] (brkResult log))
          | .propagate exc => .error exc

/-- `EventListener.start`: prints the banner, sets `self.running = True`,
registers the socket with a poller and runs the loop; the listener's final
state carries the flag the loop left behind. -/
def EventListener.start (decode : Bytes → Except PyExc Json)
    (spikeCb ttlCb : Callback) (inputs : List LoopInput) (s : EventListener) :
    Except PyExc (EventListener × RunResult) :=
  (loopGo decode spikeCb ttlCb inputs true).map fun r =>
    ({ s with running := r.running },
     { r with logs := "Starting EventListener" :: r.logs })

/-- Parameter names of `def start(self, ):` after `self` — the source's
`start` accepts no arguments at all. -/
def startParamNames : List String := []

/-- Whether a Python call supplying the given keyword-argument names binds
against a parameter list with no `**kwargs`: every keyword must name a formal
parameter, else the call raises `TypeError` before the body runs. -/
def kwargsBind (params kwargs : List String) : Bool :=
  kwargs.all fun k => params.contains k

/-- Socket operations of a finished run (none if the loop did not return). -/
def runSockOps : Except PyExc RunResult → List SockOp
  | .ok r => r.sockOps
  | .error _ => []

/-! Concrete instances used by witnesses and counterexamples. -/

/-- A decoder that yields a spike-typed object for any input bytes. -/
def decodeSpike : Bytes → Except PyExc Json :=
  fun _ => .ok (Json.obj [("event_type", Json.str "spike")])

/-- A decoder that yields the object `{"channel": 5}`, which has no
`event_type` field (end-to-end scenario 4 of the spec). -/
def decodeNoType : Bytes → Except PyExc Json :=
  fun _ => .ok (Json.obj [("channel", Json.num 5)])

/-- A decoder that always fails, as `json.loads` does on malformed text. -/
def decodeFail : Bytes → Except PyExc Json :=
  fun _ => .error (.exception "Expecting value: line 1 column 1 (char 0)")

/-- A callback that returns normally. -/
def cbOk : Callback := fun _ => .ok ()

/-- The listener built with the constructor's default arguments. -/
def l0 : EventListener := EventListener.init "127.0.0.1" 5557

/-! Helper lemmas. -/

lemma exceptMapOk {α β γ : Type} {f : β → γ} {e : Except α β} {r : γ}
    (h : e.map f = .ok r) : ∃ b, e = .ok b ∧ r = f b := by
  cases e with
  | error a => simp [Except.map] at h
  | ok b => exact ⟨b, rfl, by simpa [Except.map] using h.symm⟩

@[simp] lemma prepend_running (calls : IterCalls) (ls : List String)
    (r : RunResult) : (RunResult.prepend calls ls r).running = r.running := rfl

@[simp] lemma prepend_interrupted (calls : IterCalls) (ls : List String)
    (r : RunResult) :
    (RunResult.prepend calls ls r).interrupted = r.interrupted := rfl

@[simp] lemma prepend_exhausted (calls : IterCalls) (ls : List String)
    (r : RunResult) :
    (RunResult.prepend calls ls r).exhausted = r.exhausted := rfl

@[simp] lemma prepend_sockOps (calls : IterCalls) (ls : List String)
    (r : RunResult) :
    (RunResult.prepend calls ls r).sockOps = calls.sockOps ++ r.sockOps := rfl

/-- The `try` body never emits a `close` on the socket. -/
lemma tryBody_noClose (decode : Bytes → Except PyExc Json)
    (spikeCb ttlCb : Callback) (ev : PollEvent) :
    SockOp.close ∉ (tryBody decode spikeCb ttlCb ev).1.sockOps := by
  cases ev with
  | timeout => simp [tryBody]
  | raise e => simp [tryBody]
  | recv parts =>
      simp only [tryBody]
      split
      · split <;> try simp
        split <;> try simp
        split <;> simp
      · simp

/-- Whatever the remaining schedule, a false flag exits the loop at once. -/
lemma loopGo_false (decode : Bytes → Except PyExc Json)
    (spikeCb ttlCb : Callback) (inputs : List LoopInput) :
    loopGo decode spikeCb ttlCb inputs false = .ok exitedResult := by
  cases inputs with
  | nil => rfl
  | cons i rest => cases i <;> rfl

/-- The loop never lets an exception propagate: both `except` clauses of the
source cover the whole `PyExc` type. -/
lemma loopGo_isOk (decode : Bytes → Except PyExc Json)
    (spikeCb ttlCb : Callback) :
    ∀ (inputs : List LoopInput) (running : Bool),
      ∃ r, loopGo decode spikeCb ttlCb inputs running = .ok r := by
  intro inputs
  induction inputs with
  | nil => intro running; cases running <;> exact ⟨_, rfl⟩
  | cons i rest ih =>
      intro running
      cases running with
      | false => exact ⟨exitedResult, loopGo_false decode spikeCb ttlCb _⟩
      | true =>
          cases i with
          | stopRequest => exact ih false
          | poll ev =>
              obtain ⟨r, hr⟩ := ih true
              rcases htb : tryBody decode spikeCb ttlCb ev with ⟨calls, exc⟩
              cases exc with
              | none =>
                  exact ⟨RunResult.prepend calls [] r,
                    by simp [loopGo, htb, hr, Except.map]⟩
              | some e =>
                  cases e with
                  | keyboardInterrupt =>
                      exact ⟨RunResult.prepend calls []
                          (brkResult "Stopped by KeyboardInterrupt"),
                        by simp [loopGo, htb, handleExc]⟩
                  | exception m =>
                      exact ⟨RunResult.prepend calls ["Error: " ++ m] r,
                        by simp [loopGo, htb, handleExc, hr, Except.map]⟩

/-- When the loop returns other than by interrupt (and actually terminated),
the flag it leaves behind is false. -/
lemma loopGo_running (decode : Bytes → Except PyExc Json)
    (spikeCb ttlCb : Callback) :
    ∀ (inputs : List LoopInput) (running : Bool) (r : RunResult),
      loopGo decode spikeCb ttlCb inputs running = .ok r →
      r.interrupted = false → r.exhausted = false → r.running = false := by
  intro inputs
  induction inputs with
  | nil =>
      intro running r h hni hne
      cases running with
      | false => cases h; rfl
      | true => cases h; cases hne
  | cons i rest ih =>
      intro running r h hni hne
      cases running with
      | false =>
          rw [loopGo_false] at h
          injection h with h
          subst h
          rfl
      | true =>
          cases i with
          | stopRequest => exact ih false r h hni hne
          | poll ev =>
              rcases htb : tryBody decode spikeCb ttlCb ev with ⟨calls, exc⟩
              cases exc with
              | none =>
                  rw [loopGo, htb] at h
                  obtain ⟨r0, hr0, hfr⟩ := exceptMapOk h
                  subst hfr
                  simp only [prepend_running, prepend_interrupted,
                    prepend_exhausted] at hni hne ⊢
                  exact ih true r0 hr0 hni hne
              | some e =>
                  cases e with
                  | keyboardInterrupt =>
                      rw [loopGo, htb] at h
                      simp only [handleExc] at h
                      cases h
                      simp [RunResult.prepend, brkResult] at hni
                  | exception m =>
                      rw [loopGo, htb] at h
                      simp only [handleExc] at h
                      obtain ⟨r0, hr0, hfr⟩ := exceptMapOk h
                      subst hfr
                      simp only [prepend_running, prepend_interrupted,
                        prepend_exhausted] at hni hne ⊢
                      exact ih true r0 hr0 hni hne

/-- No run of the loop ever emits a `close` on the socket. -/
lemma loopGo_noClose (decode : Bytes → Except PyExc Json)
    (spikeCb ttlCb : Callback) :
    ∀ (inputs : List LoopInput) (running : Bool) (r : RunResult),
      loopGo decode spikeCb ttlCb inputs running = .ok r →
      SockOp.close ∉ r.sockOps := by
  intro inputs
  induction inputs with
  | nil =>
      intro running r h
      cases running with
      | false => cases h; simp [exitedResult]
      | true => cases h; simp [exhaustedResult]
  | cons i rest ih =>
      intro running r h
      cases running with
      | false =>
          rw [loopGo_false] at h
          injection h with h
          subst h
          simp [exitedResult]
      | true =>
          cases i with
          | stopRequest => exact ih false r h
          | poll ev =>
              rcases htb : tryBody decode spikeCb ttlCb ev with ⟨calls, exc⟩
              have hcalls : SockOp.close ∉ calls.sockOps := by
                have := tryBody_noClose decode spikeCb ttlCb ev
                rw [htb] at this
                exact this
              cases exc with
              | none =>
                  rw [loopGo, htb] at h
                  obtain ⟨r0, hr0, hfr⟩ := exceptMapOk h
                  subst hfr
                  simp only [prepend_sockOps, List.mem_append]
                  rintro (hc | hc)
                  · exact hcalls hc
                  · exact ih true r0 hr0 hc
              | some e =>
                  cases e with
                  | keyboardInterrupt =>
                      rw [loopGo, htb] at h
                      simp only [handleExc] at h
                      cases h
                      simp only [prepend_sockOps, List.mem_append]
                      rintro (hc | hc)
                      · exact hcalls hc
                      · simp [brkResult] at hc
                  | exception m =>
                      rw [loopGo, htb] at h
                      simp only [handleExc] at h
                      obtain ⟨r0, hr0, hfr⟩ := exceptMapOk h
                      subst hfr
                      simp only [prepend_sockOps, List.mem_append]
                      rintro (hc | hc)
                      · exact hcalls hc
                      · exact ih true r0 hr0 hc

/-! Claim theorems. -/

/-- C1: for every two-part message whose second part decodes to a JSON object
containing an `event_type` field with value `v`, exactly one callback is
invoked, with the decoded object as its argument: the spike callback when `v`
is the string `"spike"`, the TTL callback for any other value — never both. -/
theorem dispatch_exclusive (decode : Bytes → Except PyExc Json)
    (spikeCb ttlCb : Callback) (parts : List Bytes)
    (fields : List (String × Json)) (v : Json)
    (hlen : parts.length = 2)
    (hdec : decode (parts.getD 1 []) = .ok (Json.obj fields))
    (hfield : fields.lookup "event_type" = some v) :
    (tryBody decode spikeCb ttlCb (.recv parts)).1.spikeCalls
        = (if v.eqStr "spike" then [Json.obj fields] else []) ∧
    (tryBody decode spikeCb ttlCb (.recv parts)).1.ttlCalls
        = (if v.eqStr "spike" then [] else [Json.obj fields]) := by
  simp only [tryBody, hlen, hdec, Json.subscript, hfield]
  cases hv : v.eqStr "spike" <;> simp [hv]

/-- Witness for C1 at the spike message of end-to-end scenario 1. -/
theorem dispatch_exclusive_witness :
    ([[], []] : List Bytes).length = 2 ∧
    decodeSpike (([[], []] : List Bytes).getD 1 [])
        = .ok (Json.obj [("event_type", Json.str "spike")]) ∧
    ([("event_type", Json.str "spike")].lookup "event_type"
        = some (Json.str "spike")) ∧
    ((tryBody decodeSpike cbOk cbOk (.recv [[], []])).1.spikeCalls
        = (if (Json.str "spike").eqStr "spike"
            then [Json.obj [("event_type", Json.str "spike")]] else []) ∧
     (tryBody decodeSpike cbOk cbOk (.recv [[], []])).1.ttlCalls
        = (if (Json.str "spike").eqStr "spike" then []
            else [Json.obj [("event_type", Json.str "spike")]])) :=
  ⟨rfl, rfl, rfl, dispatch_exclusive decodeSpike cbOk cbOk [[], []]
      [("event_type", Json.str "spike")] (Json.str "spike") rfl rfl rfl⟩

/-- C2 counterexample: the object `{"channel": 5}` has no `event_type` field;
the subscript raises a `KeyError` (caught by the loop), so the TTL callback is
NOT invoked — contradicting the claim that it is invoked exactly once. -/
theorem missing_field_no_ttl_cex :
    (tryBody decodeNoType cbOk cbOk (.recv [[], []])).1.ttlCalls = [] ∧
    (tryBody decodeNoType cbOk cbOk (.recv [[], []])).1.spikeCalls = [] ∧
    (tryBody decodeNoType cbOk cbOk (.recv [[], []])).2
        = some (.exception "'event_type'") :=
  ⟨rfl, rfl, rfl⟩

/-- C2 (amended): for every two-part message decoding to a JSON object with no
`event_type` field, the subscript raises `KeyError('event_type')`; neither
callback is invoked, and the loop's generic handler logs the error and
continues. -/
theorem missing_field_keyerror (decode : Bytes → Except PyExc Json)
    (spikeCb ttlCb : Callback) (parts : List Bytes)
    (fields : List (String × Json))
    (hlen : parts.length = 2)
    (hdec : decode (parts.getD 1 []) = .ok (Json.obj fields))
    (hnone : fields.lookup "event_type" = none) :
    tryBody decode spikeCb ttlCb (.recv parts)
        = ({ sockOps := [.poll, .recvMultipart] },
           some (.exception "'event_type'")) ∧
    handleExc (.exception "'event_type'") = .resume "Error: 'event_type'" := by
  constructor
  · simp only [tryBody]
    rw [if_pos hlen, hdec]
    simp [Json.subscript, hnone]
  · rfl

/-- Witness for C2 (amended) at the message of end-to-end scenario 4. -/
theorem missing_field_keyerror_witness :
    ([[], []] : List Bytes).length = 2 ∧
    decodeNoType (([[], []] : List Bytes).getD 1 [])
        = .ok (Json.obj [("channel", Json.num 5)]) ∧
    ([("channel", Json.num 5)].lookup "event_type" = none) ∧
    (tryBody decodeNoType cbOk cbOk (.recv [[], []])
        = ({ sockOps := [.poll, .recvMultipart] },
           some (.exception "'event_type'")) ∧
     handleExc (.exception "'event_type'") = .resume "Error: 'event_type'") :=
  ⟨rfl, rfl, rfl, missing_field_keyerror decodeNoType cbOk cbOk [[], []]
      [("channel", Json.num 5)] rfl rfl rfl⟩

/-- C3: the source's `start` takes no parameters after `self`, so callbacks
cannot be injected at `start` time, and the call shown in the class's own
docstring, `stream.start(ttl_callback=...)`, does not even bind. -/
theorem start_no_injected_callbacks :
    startParamNames = [] ∧
    kwargsBind startParamNames ["ttl_callback"] = false :=
  ⟨rfl, rfl⟩

/-- C4: no exception propagates out of `start` — the loop's two `except`
clauses cover every exception a poll iteration can raise, and an
`Exception`-level failure is logged and the loop resumes. -/
theorem start_never_raises (decode : Bytes → Except PyExc Json)
    (spikeCb ttlCb : Callback) (inputs : List LoopInput) (s : EventListener)
    (m : String) :
    (∃ out, EventListener.start decode spikeCb ttlCb inputs s = .ok out) ∧
    handleExc (.exception m) = .resume ("Error: " ++ m) := by
  refine ⟨?_, rfl⟩
  obtain ⟨r, hr⟩ := loopGo_isOk decode spikeCb ttlCb inputs true
  exact ⟨({ s with running := r.running },
      { r with logs := "Starting EventListener" :: r.logs }),
    by simp [EventListener.start, hr, Except.map]⟩

/-- C5 counterexample: a run whose only event is a `KeyboardInterrupt` exits
the loop by `break` without clearing the flag, so `start` returns with the
listener's `running` flag still true — the claim requires false. -/
theorem interrupt_leaves_flag_true :
    (l0.start decodeSpike cbOk cbOk [.poll (.raise .keyboardInterrupt)]).map
        (fun out => out.1.running) = .ok true :=
  rfl

/-- C5 (amended): the flag is false in the initial state, and false on return
whenever the loop exited by observing the flag (i.e. not via the interrupt
`break`, in a run that actually terminated); an interrupt exit leaves the flag
as it was. -/
theorem running_flag_on_exit (ip : String) (port : Nat)
    (decode : Bytes → Except PyExc Json) (spikeCb ttlCb : Callback)
    (inputs : List LoopInput) (r : RunResult)
    (h : loopGo decode spikeCb ttlCb inputs true = .ok r)
    (hni : r.interrupted = false) (hne : r.exhausted = false) :
    (EventListener.init ip port).running = false ∧ r.running = false :=
  ⟨rfl, loopGo_running decode spikeCb ttlCb inputs true r h hni hne⟩

/-- Witness for C5 (amended) on a run stopped by an external `stop()`. -/
theorem running_flag_on_exit_witness :
    (loopGo decodeSpike cbOk cbOk [.stopRequest] true = .ok exitedResult) ∧
    exitedResult.interrupted = false ∧ exitedResult.exhausted = false ∧
    ((EventListener.init "127.0.0.1" 5557).running = false ∧
      exitedResult.running = false) :=
  ⟨rfl, rfl, rfl, running_flag_on_exit "127.0.0.1" 5557 decodeSpike cbOk cbOk
      [.stopRequest] exitedResult rfl rfl rfl⟩

/-- C6: a message without exactly two parts is silently ignored — no callback,
no exception, no log line — and the rest of the run is exactly what it would
have been without the message (only the poll/recv socket activity is added). -/
theorem wrong_part_count_ignored (decode : Bytes → Except PyExc Json)
    (spikeCb ttlCb : Callback) (parts : List Bytes) (rest : List LoopInput)
    (h : parts.length ≠ 2) :
    tryBody decode spikeCb ttlCb (.recv parts)
        = ({ sockOps := [.poll, .recvMultipart] }, none) ∧
    loopGo decode spikeCb ttlCb (.poll (.recv parts) :: rest) true
        = (loopGo decode spikeCb ttlCb rest true).map
            (RunResult.prepend { sockOps := [.poll, .recvMultipart] } []) := by
  have h1 : tryBody decode spikeCb ttlCb (.recv parts)
      = ({ sockOps := [.poll, .recvMultipart] }, none) := by
    simp [tryBody, h]
  refine ⟨h1, ?_⟩
  rw [loopGo, h1]

/-- Witness for C6 at a one-part message (end-to-end scenario 3). -/
theorem wrong_part_count_ignored_witness :
    ([[]] : List Bytes).length ≠ 2 ∧
    (tryBody decodeSpike cbOk cbOk (.recv [[]])
        = ({ sockOps := [.poll, .recvMultipart] }, none) ∧
     loopGo decodeSpike cbOk cbOk [.poll (.recv [[]])] true
        = (loopGo decodeSpike cbOk cbOk [] true).map
            (RunResult.prepend { sockOps := [.poll, .recvMultipart] } [])) :=
  ⟨by decide, wrong_part_count_ignored decodeSpike cbOk cbOk [[]] [] (by decide)⟩

/-- C7: a two-part message whose second part fails UTF-8 decoding or JSON
parsing raises an `Exception`-level error; it is caught, `Error: <detail>` is
logged, neither callback is invoked, and the run continues exactly as without
the message. -/
theorem decode_failure_logged (decode : Bytes → Except PyExc Json)
    (spikeCb ttlCb : Callback) (parts : List Bytes) (rest : List LoopInput)
    (m : String)
    (hlen : parts.length = 2)
    (hdec : decode (parts.getD 1 []) = .error (.exception m)) :
    tryBody decode spikeCb ttlCb (.recv parts)
        = ({ sockOps := [.poll, .recvMultipart] }, some (.exception m)) ∧
    loopGo decode spikeCb ttlCb (.poll (.recv parts) :: rest) true
        = (loopGo decode spikeCb ttlCb rest true).map
            (RunResult.prepend { sockOps := [.poll, .recvMultipart] }
              ["Error: " ++ m]) := by
  have h1 : tryBody decode spikeCb ttlCb (.recv parts)
      = ({ sockOps := [.poll, .recvMultipart] }, some (.exception m)) := by
    simp only [tryBody]
    rw [if_pos hlen, hdec]
  refine ⟨h1, ?_⟩
  rw [loopGo, h1]
  rfl

/-- Witness for C7 at a message whose payload is not valid JSON. -/
theorem decode_failure_logged_witness :
    ([[], []] : List Bytes).length = 2 ∧
    decodeFail (([[], []] : List Bytes).getD 1 [])
        = .error (.exception "Expecting value: line 1 column 1 (char 0)") ∧
    (tryBody decodeFail cbOk cbOk (.recv [[], []])
        = ({ sockOps := [.poll, .recvMultipart] },
           some (.exception "Expecting value: line 1 column 1 (char 0)")) ∧
     loopGo decodeFail cbOk cbOk [.poll (.recv [[], []])] true
        = (loopGo decodeFail cbOk cbOk [] true).map
            (RunResult.prepend { sockOps := [.poll, .recvMultipart] }
              ["Error: " ++ "Expecting value: line 1 column 1 (char 0)"])) :=
  ⟨rfl, rfl, decode_failure_logged decodeFail cbOk cbOk [[], []] []
      "Expecting value: line 1 column 1 (char 0)" rfl rfl⟩

/-- C8: `stop` always leaves the flag false, never raises (it is a plain
attribute assignment, hence a total function here), is idempotent, and is the
identity on an already-stopped listener. -/
theorem stop_idempotent_total (s : EventListener) :
    (s.stop).running = false ∧ s.stop.stop = s.stop ∧
      (s.running = false → s.stop = s) := by
  refine ⟨rfl, rfl, fun h => ?_⟩
  cases s
  simp_all [EventListener.stop]

/-- Witness for C8 on the freshly constructed (stopped) listener. -/
theorem stop_idempotent_total_witness :
    l0.running = false ∧ l0.stop = l0 :=
  ⟨rfl, (stop_idempotent_total l0).2.2 rfl⟩

/-- C9 counterexample: a complete lifetime — construction, a run that receives
a message and then exits via `KeyboardInterrupt`, and `stop` — performs no
`close` on the socket: the resource is never released by the listener. -/
theorem socket_never_released_cex :
    SockOp.close ∉
      (EventListener.initSockOps l0.url ++
        runSockOps (loopGo decodeSpike cbOk cbOk
          [.poll (.recv [[], []]), .poll (.raise .keyboardInterrupt)] true) ++
        EventListener.stopSockOps) := by
  decide

/-- C9 (amended): no operation of the listener ever releases the socket —
construction acquires it, and neither any run of the loop (on any exit path,
interrupt included) nor `stop` performs a `close`; release is left to the
runtime's garbage collection. -/
theorem socket_never_released (ip : String) (port : Nat)
    (decode : Bytes → Except PyExc Json) (spikeCb ttlCb : Callback)
    (inputs : List LoopInput) :
    SockOp.close ∉ EventListener.initSockOps (EventListener.init ip port).url ∧
    SockOp.close ∉ runSockOps (loopGo decode spikeCb ttlCb inputs true) ∧
    SockOp.close ∉ EventListener.stopSockOps := by
  refine ⟨?_, ?_, ?_⟩
  · simp [EventListener.initSockOps]
  · rcases hres : loopGo decode spikeCb ttlCb inputs true with e | r
    · simp [runSockOps]
    · simpa [runSockOps] using
        loopGo_noClose decode spikeCb ttlCb inputs true r hres
  · simp [EventListener.stopSockOps]

/-- C10: `stop` changes nothing but the flag — the url, the context, the
socket and its subscriptions are exactly those of the state before. -/
theorem stop_frame (s : EventListener) :
    (s.stop).url = s.url ∧ (s.stop).context = s.context ∧
    (s.stop).socket = s.socket ∧ (s.stop).subscriptions = s.subscriptions :=
  ⟨rfl, rfl, rfl, rfl⟩

end OpenEphys
